import Mathlib

/-!
# sig-auth-tools: name resolution and page collection

A shallow embedding of `main.go`.  The remote service is an explicit state
machine (`ghClient σ`): every library call takes the server state and
returns the next state together with the call's result.  A `World` carries
the server state, the log of library calls made so far and the text written
to standard output, so that "how many fetches" and "no further call" are
statements about `World.calls`.

Go's `for { ... }` loops may run forever (a server can always announce one
more page), so each loop takes a fuel bound and yields `none` when the
bound is exhausted.
-/

namespace SigAuth

/-! ## Data model -/

/-- Go pointer: `none` is the nil pointer. -/
abbrev Ptr (α : Type) := Option α

/-- The type `githubql.ID` is `interface{}`: nil, or the decoded scalar. -/
inductive ID where
  | nil
  | str (s : String)
  deriving DecidableEq, Repr

/-- Go `error` values that can arise: an error handed back by a library
call, or one built by `fmt.Errorf(format, arg)`. -/
inductive GoError where
  | api (msg : String)
  | errorf (format : String) (args : List String)
  deriving DecidableEq, Repr

/-- Number of items to return per page. -/
def perPage : Int := 100

/-- Name of the GitHub organization to query. -/
def orgName : String := "kubernetes"

/-- Name of the GitHub project to query. -/
def projectName : String := "@aramase\x27s untitled project"

/-- Name of the GitHub project column to query. -/
def columnName : String := "Needs Triage"

/-- The struct `github.ListOptions`. -/
structure ListOptions where
  Page : Int
  PerPage : Int
  deriving DecidableEq, Repr

/-- The struct `github.RepositoryListByOrgOptions` (fields the program sets). -/
structure RepositoryListByOrgOptions where
  ListOptions : ListOptions
  deriving DecidableEq, Repr

/-- The struct `github.IssueListByRepoOptions` (fields the program sets). -/
structure IssueListByRepoOptions where
  Labels : List String
  ListOptions : ListOptions
  deriving DecidableEq, Repr

/-- The struct `github.Response` (the field the program reads). -/
structure Response where
  NextPage : Int
  deriving DecidableEq, Repr

/-- The struct `github.Repository` (the field the program reads). -/
structure Repository where
  Name : Ptr String
  deriving DecidableEq, Repr

/-- The struct `github.Label`. -/
structure Label where
  Name : Ptr String
  deriving DecidableEq, Repr

/-- The struct `github.PullRequestLinks`. -/
structure PullRequestLinks where
  URL : Ptr String
  deriving DecidableEq, Repr

/-- The struct `github.Issue`: an issue or a pull request. -/
structure Issue where
  ID : Ptr Int
  Labels : List (Ptr Label)
  PullRequestLinks : Ptr PullRequestLinks
  deriving DecidableEq, Repr

/-- If `PullRequestLinks` is nil this is an issue, otherwise a pull request. -/
def Issue.IsPullRequest (i : Issue) : Bool := i.PullRequestLinks.isSome

/-- One element of `query.Organization.ProjectV2.Nodes`. -/
structure ProjectNode where
  ID : ID
  Title : String
  deriving DecidableEq, Repr

/-- The struct `projectColumn`; also the shape of one element of `Options`. -/
structure projectColumn where
  ID : ID
  Name : String
  deriving DecidableEq, Repr

/-- The `... on ProjectV2SingleSelectField` fragment of a field node. -/
structure ProjectV2SingleSelectField where
  ID : ID
  Name : String
  Options : List projectColumn
  deriving DecidableEq, Repr

/-- One element of `query.Node.ProjectV2.Fields.Nodes`. -/
structure FieldNode where
  ProjectV2SingleSelectField : ProjectV2SingleSelectField
  deriving DecidableEq, Repr

/-- A library call, as recorded in the log. -/
inductive Call where
  | queryProjects (org : String)
  | queryFields (projectID : ID)
  | listByOrg (org : String) (opt : RepositoryListByOrgOptions)
  | listByRepo (owner repo : String) (opts : IssueListByRepoOptions)
  deriving DecidableEq, Repr

/-- An argument of a print call. -/
inductive Arg where
  | str (s : String)
  | id (i : ID)
  | int (n : Int)
  deriving DecidableEq, Repr

/-- One write to standard output. -/
inductive Out where
  | printf (format : String) (args : List Arg)
  | println (args : List Arg)
  deriving DecidableEq, Repr

/-- The struct `ghClient`: the REST client and the v4 (GraphQL) client, as
transitions of the remote service.  `Query` is split by the two query
shapes the program uses. -/
structure ghClient (σ : Type) where
  ListByOrg : σ → String → RepositoryListByOrgOptions →
    σ × Except GoError (List (Ptr Repository) × Response)
  ListByRepo : σ → String → String → IssueListByRepoOptions →
    σ × Except GoError (List (Ptr Issue) × Response)
  QueryProjects : σ → String → σ × Except GoError (List ProjectNode)
  QueryFields : σ → ID → σ × Except GoError (List FieldNode)

/-- Everything outside the process: server state, call log, standard output. -/
structure World (σ : Type) where
  server : σ
  calls : List Call
  stdout : List Out

variable {σ : Type}

/-- Write to standard output. -/
def World.print (w : World σ) (o : Out) : World σ :=
  ⟨w.server, w.calls, w.stdout ++ [o]⟩

/-- The call `c.Repositories.ListByOrg(ctx, org, opt)`. -/
def World.ListByOrg (w : World σ) (c : ghClient σ) (org : String)
    (opt : RepositoryListByOrgOptions) :
    World σ × Except GoError (List (Ptr Repository) × Response) :=
  (⟨(c.ListByOrg w.server org opt).1, w.calls ++ [Call.listByOrg org opt], w.stdout⟩,
   (c.ListByOrg w.server org opt).2)

/-- The call `c.Issues.ListByRepo(ctx, owner, repo, opts)`. -/
def World.ListByRepo (w : World σ) (c : ghClient σ) (owner repo : String)
    (opts : IssueListByRepoOptions) :
    World σ × Except GoError (List (Ptr Issue) × Response) :=
  (⟨(c.ListByRepo w.server owner repo opts).1,
    w.calls ++ [Call.listByRepo owner repo opts], w.stdout⟩,
   (c.ListByRepo w.server owner repo opts).2)

/-- The call `c.v4Client.Query(ctx, &query, variables)` of `getProjectID`. -/
def World.QueryProjects (w : World σ) (c : ghClient σ) (org : String) :
    World σ × Except GoError (List ProjectNode) :=
  (⟨(c.QueryProjects w.server org).1, w.calls ++ [Call.queryProjects org], w.stdout⟩,
   (c.QueryProjects w.server org).2)

/-- The call `c.v4Client.Query(ctx, &query, variables)` of `getProjectColumnID`. -/
def World.QueryFields (w : World σ) (c : ghClient σ) (projectID : ID) :
    World σ × Except GoError (List FieldNode) :=
  (⟨(c.QueryFields w.server projectID).1, w.calls ++ [Call.queryFields projectID], w.stdout⟩,
   (c.QueryFields w.server projectID).2)

/-! ## Paginated listings -/

/-- The `for { ... }` loop of `listRepos`; `allRepos` and `opt` are the
loop-carried variables. -/
def listRepos.loop (c : ghClient σ) (org : String) :
    Nat → World σ → List (Ptr Repository) → RepositoryListByOrgOptions →
    Option (World σ × List (Ptr Repository) × Option GoError)
  | 0, _, _, _ => none
  | fuel + 1, w, allRepos, opt =>
    match w.ListByOrg c org opt with
    | (w1, Except.error err) => some (w1, [], some err)
    | (w1, Except.ok (repos, resp)) =>
      if resp.NextPage = 0 then some (w1, allRepos ++ repos, none)
      else listRepos.loop c org fuel w1 (allRepos ++ repos) ⟨⟨resp.NextPage, opt.ListOptions.PerPage⟩⟩

/-- The method `listRepos`: all repositories of `org`, page by page. -/
def listRepos (c : ghClient σ) (fuel : Nat) (w : World σ) (org : String) :
    Option (World σ × List (Ptr Repository) × Option GoError) :=
  listRepos.loop c org fuel w [] ⟨⟨0, perPage⟩⟩

/-- The `for { ... }` loop of `listIssuesAndPullRequests`. -/
def listIssuesAndPullRequests.loop (c : ghClient σ) (owner repo : String) :
    Nat → World σ → List (Ptr Issue) → IssueListByRepoOptions →
    Option (World σ × List (Ptr Issue) × Option GoError)
  | 0, _, _, _ => none
  | fuel + 1, w, allIssues, opts =>
    match w.ListByRepo c owner repo opts with
    | (w1, Except.error err) => some (w1, [], some err)
    | (w1, Except.ok (issues, resp)) =>
      if resp.NextPage = 0 then some (w1, allIssues ++ issues, none)
      else listIssuesAndPullRequests.loop c owner repo fuel w1 (allIssues ++ issues)
        ⟨opts.Labels, ⟨resp.NextPage, opts.ListOptions.PerPage⟩⟩

/-- The method `listIssuesAndPullRequests`: all issues and pull requests of
`owner/repo` carrying `labels`, page by page. -/
def listIssuesAndPullRequests (c : ghClient σ) (fuel : Nat) (w : World σ)
    (owner repo : String) (labels : List String) :
    Option (World σ × List (Ptr Issue) × Option GoError) :=
  listIssuesAndPullRequests.loop c owner repo fuel w [] ⟨labels, ⟨0, perPage⟩⟩

/-! ## Name resolution -/

/-- The `for _, project := range ...Nodes` loop of `getProjectID`: the world
and the ID at the `return` inside the loop, or `none` when the loop falls
through. -/
def getProjectID.scan (name : String) (w : World σ) : List ProjectNode → Option (World σ × ID)
  | [] => none
  | project :: rest =>
    if project.Title = name then
      some (w.print (Out.printf "found project %q with ID %q\n" [Arg.str name, Arg.id project.ID]),
        project.ID)
    else getProjectID.scan name w rest

/-- The method `getProjectID`. -/
def getProjectID (c : ghClient σ) (w : World σ) (org name : String) :
    World σ × ID × Option GoError :=
  match w.QueryProjects c org with
  | (w1, Except.error err) => (w1, ID.nil, some err)
  | (w1, Except.ok nodes) =>
    match getProjectID.scan name w1 nodes with
    | some (w2, id) => (w2, id, none)
    | none => (w1, ID.nil, some (GoError.errorf "project %q not found" [name]))

/-- The inner `for _, option := range ...Options` loop of `getProjectColumnID`. -/
def getProjectColumnID.scanOptions (name : String) : List projectColumn → Option ID
  | [] => none
  | option :: rest =>
    if option.Name = name then some option.ID
    else getProjectColumnID.scanOptions name rest

/-- The outer `for _, column := range ...Fields.Nodes` loop of `getProjectColumnID`. -/
def getProjectColumnID.scan (name : String) : List FieldNode → Option ID
  | [] => none
  | column :: rest =>
    if column.ProjectV2SingleSelectField.Name ≠ "Status" then
      getProjectColumnID.scan name rest
    else
      match getProjectColumnID.scanOptions name column.ProjectV2SingleSelectField.Options with
      | some id => some id
      | none => getProjectColumnID.scan name rest

/-- The method `getProjectColumnID`. -/
def getProjectColumnID (c : ghClient σ) (w : World σ) (projectID : ID) (name : String) :
    World σ × ID × Option GoError :=
  match w.QueryFields c projectID with
  | (w1, Except.error err) => (w1, ID.nil, some err)
  | (w1, Except.ok nodes) =>
    match getProjectColumnID.scan name nodes with
    | some id => (w1, id, none)
    | none => (w1, ID.nil, some (GoError.errorf "column %q not found" [name]))

/-! ## Orchestration -/

/-- What a Go panic carries: the error given to `panic`, or the runtime
error of dereferencing a nil pointer. -/
inductive PanicValue where
  | err (e : GoError)
  | nilDereference
  deriving DecidableEq, Repr

/-- How `main` ends. -/
inductive Outcome where
  | returned
  | panicked (v : PanicValue)
  deriving DecidableEq, Repr

/-- The `for _, repo := range repos` loop of `main`; `must(err)` panics on
an error, and `*repo.Name` panics on a nil pointer. -/
def main.rangeRepos (c : ghClient σ) (fuel : Nat) : World σ → List (Ptr Repository) →
    Option (World σ × Outcome)
  | w, [] => some (w, Outcome.returned)
  | w, repo :: rest =>
    match repo.bind Repository.Name with
    | none => some (w, Outcome.panicked PanicValue.nilDereference)
    | some repoName =>
      match listIssuesAndPullRequests c fuel
          (w.print (Out.printf "Looking for issues and PRs in %s/%s\n"
            [Arg.str orgName, Arg.str repoName]))
          orgName repoName ["sig/auth"] with
      | none => none
      | some (w1, _, some err) => some (w1, Outcome.panicked (PanicValue.err err))
      | some (w1, items, none) =>
        main.rangeRepos c fuel
          (w1.print (Out.printf "found %d in repo\n" [Arg.int items.length])) rest

/-- The function `main`, from the first use of the client on. -/
def main (c : ghClient σ) (fuel : Nat) (w : World σ) : Option (World σ × Outcome) :=
  match getProjectID c w orgName projectName with
  | (w1, _, some err) => some (w1, Outcome.panicked (PanicValue.err err))
  | (w1, projectID, none) =>
    match getProjectColumnID c w1 projectID columnName with
    | (w2, _, some err) => some (w2, Outcome.panicked (PanicValue.err err))
    | (w2, columnID, none) =>
      match listRepos c fuel
          (w2.print (Out.println [Arg.str "columnID: ", Arg.id columnID])) orgName with
      | none => none
      | some (w3, _, some err) => some (w3, Outcome.panicked (PanicValue.err err))
      | some (w3, repos, none) => main.rangeRepos c fuel w3 repos

/-! ## Specification-side vocabulary -/

/-- The fetch that `listRepos` performs for page number `page`, as a
transition of the server. -/
def repoFetch (c : ghClient σ) (org : String) (s : σ) (page : Int) :
    σ × Except GoError (List (Ptr Repository) × Response) :=
  c.ListByOrg s org ⟨⟨page, perPage⟩⟩

/-- The log entry of the fetch that `listRepos` performs for `page`. -/
def repoCall (org : String) (page : Int) : Call :=
  Call.listByOrg org ⟨⟨page, perPage⟩⟩

/-- The fetch that `listIssuesAndPullRequests` performs for page number `page`. -/
def issueFetch (c : ghClient σ) (owner repo : String) (labels : List String) (s : σ)
    (page : Int) : σ × Except GoError (List (Ptr Issue) × Response) :=
  c.ListByRepo s owner repo ⟨labels, ⟨page, perPage⟩⟩

/-- The log entry of the fetch that `listIssuesAndPullRequests` performs for `page`. -/
def issueCall (owner repo : String) (labels : List String) (page : Int) : Call :=
  Call.listByRepo owner repo ⟨labels, ⟨page, perPage⟩⟩

/-- The relation `Serves fetch s p pages s1 p1`: starting in server state `s`
and asking for page `p`, the successive fetches succeed with the responses
`pages` (items and a nonzero `NextPage` each), every fetch after the first
asking for the `NextPage` of the response before it; `s1` is the server
state after them and `p1` the page number to ask for next. -/
inductive Serves {α : Type} (fetch : σ → Int → σ × Except GoError (List α × Response)) :
    σ → Int → List (List α × Int) → σ → Int → Prop where
  | done (s : σ) (p : Int) : Serves fetch s p [] s p
  | more {s s1 s2 : σ} {p next p2 : Int} {items : List α} {rest : List (List α × Int)} :
      fetch s p = (s1, Except.ok (items, ⟨next⟩)) → next ≠ 0 →
      Serves fetch s1 next rest s2 p2 → Serves fetch s p ((items, next) :: rest) s2 p2

/-- The common shape of the two page loops, over an arbitrary fetch; `mk`
builds the log entry of a fetch. -/
def collectPages {α : Type} (fetch : σ → Int → σ × Except GoError (List α × Response))
    (mk : Int → Call) : Nat → World σ → List α → Int →
    Option (World σ × List α × Option GoError)
  | 0, _, _, _ => none
  | fuel + 1, w, acc, page =>
    match (fetch w.server page).2 with
    | Except.error err =>
      some (⟨(fetch w.server page).1, w.calls ++ [mk page], w.stdout⟩, [], some err)
    | Except.ok (items, resp) =>
      if resp.NextPage = 0 then
        some (⟨(fetch w.server page).1, w.calls ++ [mk page], w.stdout⟩, acc ++ items, none)
      else
        collectPages fetch mk fuel ⟨(fetch w.server page).1, w.calls ++ [mk page], w.stdout⟩
          (acc ++ items) resp.NextPage

/-- Index (from 0) of the page a page number denotes: the unset number 0
and the number 1 both denote the first page. -/
def pageIndex (page : Int) : Nat := (page - 1).toNat

/-- A simulated paginated endpoint over the dataset `data` with pages of `P`
items: page `k` (from 0) holds items `k * P` up to `(k + 1) * P`, shown
through `f`, and `NextPage` is the number of the following page when items
remain beyond this page and 0 otherwise. -/
def servePage {α β : Type} (f : List α → List β) (P : Nat) (data : List α) (page : Int) :
    List β × Response :=
  (f ((data.drop (pageIndex page * P)).take P),
   ⟨if (pageIndex page + 1) * P < data.length then ((pageIndex page + 2 : Nat) : Int) else 0⟩)

/-- Does the issue carry the label named `l`? -/
def Issue.hasLabel (i : Issue) (l : String) : Bool :=
  i.Labels.any (fun p => decide (p.bind Label.Name = some l))

/-- Does the issue carry every label of `labels`? -/
def Issue.hasLabels (labels : List String) (i : Issue) : Bool :=
  labels.all i.hasLabel

/-- A simulated server that serves `repos` and `issues` as consecutive pages
of `P` items, whatever the request asks for. -/
def pagedClient (P : Nat) (repos : List (Ptr Repository)) (issues : List (Ptr Issue)) :
    ghClient Unit where
  ListByOrg := fun s _ opt => (s, Except.ok (servePage id P repos opt.ListOptions.Page))
  ListByRepo := fun s _ _ opts => (s, Except.ok (servePage id P issues opts.ListOptions.Page))
  QueryProjects := fun s _ => (s, Except.ok [])
  QueryFields := fun s _ => (s, Except.ok [])

/-- A simulated repository server that first keeps the issues carrying all
requested labels and then serves them in pages of the requested size. -/
def labelClient (issues : List Issue) : ghClient Unit where
  ListByOrg := fun s _ _ => (s, Except.ok ([], ⟨0⟩))
  ListByRepo := fun s _ _ opts =>
    (s, Except.ok (servePage (List.map some) opts.ListOptions.PerPage.toNat
      (issues.filter (Issue.hasLabels opts.Labels)) opts.ListOptions.Page))
  QueryProjects := fun s _ => (s, Except.ok [])
  QueryFields := fun s _ => (s, Except.ok [])

/-- A simulated repository server that cuts all issues into pages of the
requested size and keeps, within each page, the issues carrying all
requested labels. -/
def pageThenLabelClient (issues : List Issue) : ghClient Unit where
  ListByOrg := fun s _ _ => (s, Except.ok ([], ⟨0⟩))
  ListByRepo := fun s _ _ opts =>
    (s, Except.ok (servePage (fun page => (page.filter (Issue.hasLabels opts.Labels)).map some)
      opts.ListOptions.PerPage.toNat issues opts.ListOptions.Page))
  QueryProjects := fun s _ => (s, Except.ok [])
  QueryFields := fun s _ => (s, Except.ok [])

/-- The page numbers asked for when `n` pages are fetched from a simulated
paginated endpoint: the unset number 0, then 2, 3, ..., `n`. -/
def pageNumbers (n : Nat) : List Int :=
  0 :: (List.range (n - 1)).map (fun i => ((i + 2 : Nat) : Int))

/-- Column resolution as the specification words it: the fields named
exactly "Status" in returned order, their option lists concatenated, the
first option with the requested name. -/
def getProjectColumnID_spec (nodes : List FieldNode) (name : String) : ID × Option GoError :=
  match (((nodes.filter (fun n => decide (n.ProjectV2SingleSelectField.Name = "Status"))).map
      (fun n => n.ProjectV2SingleSelectField.Options)).flatten).find?
      (fun o => decide (o.Name = name)) with
  | some o => (o.ID, none)
  | none => (ID.nil, some (GoError.errorf "column %q not found" [name]))

/-- Number of pages a dataset of `N` items is cut into with `P` items per
page: the ceiling of `N / P`. -/
def ceilDiv (N P : Nat) : Nat := (N + P - 1) / P

/-- A simulated server that answers from scripts, whatever the request: the
two queries with fixed results, the `n`-th repository fetch with the `n`-th
entry of `repoPages`, the `n`-th issue fetch with the `n`-th entry of
`issuePages`, and a fetch beyond its script with an error.  Its state
counts the repository fetches and the issue fetches answered so far. -/
def scriptClient (projects : Except GoError (List ProjectNode))
    (fields : Except GoError (List FieldNode))
    (repoPages : List (Except GoError (List (Ptr Repository) × Response)))
    (issuePages : List (Except GoError (List (Ptr Issue) × Response))) :
    ghClient (Nat × Nat) where
  ListByOrg := fun s _ _ =>
    ((s.1 + 1, s.2), repoPages.getD s.1 (Except.error (GoError.api "script exhausted")))
  ListByRepo := fun s _ _ _ =>
    ((s.1, s.2 + 1), issuePages.getD s.2 (Except.error (GoError.api "script exhausted")))
  QueryProjects := fun s _ => (s, projects)
  QueryFields := fun s _ => (s, fields)

/-- A repository named `name`. -/
def repoNamed (name : String) : Ptr Repository := some ⟨some name⟩

/-- An issue (`pr = false`) or pull request (`pr = true`) with number `n`
carrying the labels `labels`. -/
def issueWith (n : Int) (labels : List String) (pr : Bool) : Issue :=
  ⟨some n, labels.map (fun l => some ⟨some l⟩), if pr then some ⟨none⟩ else none⟩

/-- A simulated repository of 250 issues numbered from 0: every sixth issue
below number 240 carries the label "sig/auth" (40 issues), the others carry
"kind/bug", and every fourth issue is a pull request. -/
def sampleIssues : List Issue :=
  (List.range 250).map (fun (i : Nat) =>
    issueWith (i : Int) (if i % 6 = 0 ∧ i < 240 then ["sig/auth"] else ["kind/bug"]) (i % 4 = 0))

/-- A single-select field named `name` with the options `options`, given as
pairs of option ID and option name. -/
def fieldNamed (name : String) (options : List (String × String)) : FieldNode :=
  ⟨⟨ID.nil, name, options.map (fun o => ⟨ID.str o.1, o.2⟩)⟩⟩

/-- A simulated server that answers the project query with `projects` and
the field query with `fields`, and has no repositories. -/
def queryClient (projects : List ProjectNode) (fields : List FieldNode) : ghClient (Nat × Nat) :=
  scriptClient (Except.ok projects) (Except.ok fields) [] []

/-- A project list holding the project `main` looks for, with ID "PVT_1". -/
def sampleProjects : List ProjectNode := [⟨ID.str "PVT_0", "Other"⟩, ⟨ID.str "PVT_1", projectName⟩]

/-- A field list holding a "Status" field with the column `main` looks for,
with ID "OPT_7". -/
def sampleFields : List FieldNode :=
  [fieldNamed "Status" [("OPT_6", "Done"), ("OPT_7", columnName)]]

/-! ## Lemmas on the page loops -/

theorem listRepos_loop_eq (c : ghClient σ) (org : String) (fuel : Nat) :
    ∀ (w : World σ) (acc : List (Ptr Repository)) (page : Int),
      listRepos.loop c org fuel w acc ⟨⟨page, perPage⟩⟩ =
        collectPages (repoFetch c org) (repoCall org) fuel w acc page := by
  induction fuel with
  | zero => intro w acc page; rfl
  | succ n ih =>
    intro w acc page
    simp only [listRepos.loop, collectPages, World.ListByOrg, repoFetch, repoCall]
    cases h : (c.ListByOrg w.server org ⟨⟨page, perPage⟩⟩).2 with
    | error e => rfl
    | ok r =>
      obtain ⟨items, resp⟩ := r
      simp only []
      split
      · rfl
      · rw [ih]

theorem listIssues_loop_eq (c : ghClient σ) (owner repo : String) (labels : List String)
    (fuel : Nat) :
    ∀ (w : World σ) (acc : List (Ptr Issue)) (page : Int),
      listIssuesAndPullRequests.loop c owner repo fuel w acc ⟨labels, ⟨page, perPage⟩⟩ =
        collectPages (issueFetch c owner repo labels) (issueCall owner repo labels)
          fuel w acc page := by
  induction fuel with
  | zero => intro w acc page; rfl
  | succ n ih =>
    intro w acc page
    simp only [listIssuesAndPullRequests.loop, collectPages, World.ListByRepo, issueFetch,
      issueCall]
    cases h : (c.ListByRepo w.server owner repo ⟨labels, ⟨page, perPage⟩⟩).2 with
    | error e => rfl
    | ok r =>
      obtain ⟨items, resp⟩ := r
      simp only []
      split
      · rfl
      · rw [ih]

theorem collectPages_succ_ok {α : Type}
    (fetch : σ → Int → σ × Except GoError (List α × Response)) (mk : Int → Call)
    (fuel : Nat) (w : World σ) (acc : List α) (page : Int) (s1 : σ) (items : List α)
    (next : Int) (h : fetch w.server page = (s1, Except.ok (items, ⟨next⟩))) :
    collectPages fetch mk (fuel + 1) w acc page =
      if next = 0 then some (⟨s1, w.calls ++ [mk page], w.stdout⟩, acc ++ items, none)
      else collectPages fetch mk fuel ⟨s1, w.calls ++ [mk page], w.stdout⟩ (acc ++ items) next := by
  simp only [collectPages, h]

theorem collectPages_succ_error {α : Type}
    (fetch : σ → Int → σ × Except GoError (List α × Response)) (mk : Int → Call)
    (fuel : Nat) (w : World σ) (acc : List α) (page : Int) (s1 : σ) (err : GoError)
    (h : fetch w.server page = (s1, Except.error err)) :
    collectPages fetch mk (fuel + 1) w acc page =
      some (⟨s1, w.calls ++ [mk page], w.stdout⟩, [], some err) := by
  simp only [collectPages, h]

/-- Along a chain of successful pages the loop accumulates their items and
arrives, with the fuel that is left, at the state after the chain. -/
theorem collectPages_serves {α : Type}
    (fetch : σ → Int → σ × Except GoError (List α × Response)) (mk : Int → Call)
    {s s1 : σ} {p p1 : Int} {pages : List (List α × Int)}
    (h : Serves fetch s p pages s1 p1) :
    ∀ (fuel : Nat) (calls : List Call) (out : List Out) (acc : List α),
      collectPages fetch mk (pages.length + fuel) ⟨s, calls, out⟩ acc p =
        collectPages fetch mk fuel
          ⟨s1, calls ++ ((p :: pages.map Prod.snd).take pages.length).map mk, out⟩
          (acc ++ (pages.map Prod.fst).flatten) p1 := by
  induction h with
  | done s p => intro fuel calls out acc; simp
  | more hf hn _ ih =>
    intro fuel calls out acc
    rw [List.length_cons, Nat.add_right_comm, collectPages_succ_ok fetch mk _ _ _ _ _ _ _ hf,
      if_neg hn, ih]
    simp [List.append_assoc]

/-- The page number a chain ends on is the last `NextPage` it was given. -/
theorem Serves.requested {α : Type}
    {fetch : σ → Int → σ × Except GoError (List α × Response)}
    {s s1 : σ} {p p1 : Int} {pages : List (List α × Int)}
    (h : Serves fetch s p pages s1 p1) :
    (p :: pages.map Prod.snd).take pages.length ++ [p1] = p :: pages.map Prod.snd := by
  induction h with
  | done s p => simp
  | more _ _ _ ih => simpa using ih

theorem collectPages_last {α : Type}
    (fetch : σ → Int → σ × Except GoError (List α × Response)) (mk : Int → Call)
    {s s1 s2 : σ} {p p1 : Int} {pages : List (List α × Int)} {items : List α}
    (h : Serves fetch s p pages s1 p1)
    (hlast : fetch s1 p1 = (s2, Except.ok (items, ⟨0⟩)))
    (fuel : Nat) (hfuel : pages.length < fuel) (w : World σ) (hw : w.server = s)
    (acc : List α) :
    collectPages fetch mk fuel w acc p =
      some (⟨s2, w.calls ++ (p :: pages.map Prod.snd).map mk, w.stdout⟩,
        acc ++ (pages.map Prod.fst).flatten ++ items, none) := by
  obtain ⟨k, rfl⟩ : ∃ k, fuel = pages.length + (k + 1) := ⟨fuel - pages.length - 1, by omega⟩
  obtain ⟨s0, calls, out⟩ := w
  subst hw
  rw [collectPages_serves fetch mk h, collectPages_succ_ok fetch mk _ _ _ _ _ _ _ hlast,
    if_pos rfl]
  conv_rhs => rw [← h.requested]
  simp [List.append_assoc]

theorem collectPages_fails {α : Type}
    (fetch : σ → Int → σ × Except GoError (List α × Response)) (mk : Int → Call)
    {s s1 s2 : σ} {p p1 : Int} {pages : List (List α × Int)} {err : GoError}
    (h : Serves fetch s p pages s1 p1)
    (hlast : fetch s1 p1 = (s2, Except.error err))
    (fuel : Nat) (hfuel : pages.length < fuel) (w : World σ) (hw : w.server = s)
    (acc : List α) :
    collectPages fetch mk fuel w acc p =
      some (⟨s2, w.calls ++ (p :: pages.map Prod.snd).map mk, w.stdout⟩, [], some err) := by
  obtain ⟨k, rfl⟩ : ∃ k, fuel = pages.length + (k + 1) := ⟨fuel - pages.length - 1, by omega⟩
  obtain ⟨s0, calls, out⟩ := w
  subst hw
  rw [collectPages_serves fetch mk h, collectPages_succ_error fetch mk _ _ _ _ _ _ hlast]
  conv_rhs => rw [← h.requested]
  simp [List.append_assoc]

/-! ## Lemmas on the simulated paginated endpoint -/

theorem pageIndex_zero : pageIndex 0 = 0 := by decide

theorem pageIndex_cast (k : Nat) : pageIndex ((k + 2 : Nat) : Int) = k + 1 := by
  unfold pageIndex
  omega

/-- From page index `k` with `m` more pages to come, the loop fetches the
`m + 1` remaining pages of a simulated endpoint and returns what is left of
the dataset. -/
theorem collectPages_paged {α β : Type} (f : List α → List β)
    (hf : ∀ a b, f (a ++ b) = f a ++ f b) (P : Nat) (data : List α)
    (fetch : σ → Int → σ × Except GoError (List β × Response)) (mk : Int → Call)
    (hfetch : ∀ s p, fetch s p = (s, Except.ok (servePage f P data p))) :
    ∀ (m k : Nat) (page : Int) (fuel : Nat) (w : World σ) (acc : List β),
      pageIndex page = k → m < fuel →
      data.length ≤ (k + m + 1) * P →
      ((k + m) * P < data.length ∨ (k = 0 ∧ m = 0)) →
      collectPages fetch mk fuel w acc page =
        some (⟨w.server,
            w.calls ++ (page :: (List.range m).map (fun i => ((k + i + 2 : Nat) : Int))).map mk,
            w.stdout⟩,
          acc ++ f (data.drop (k * P)), none) := by
  intro m
  induction m with
  | zero =>
    intro k page fuel w acc hk hfuel h1 h2
    obtain ⟨n, rfl⟩ : ∃ n, fuel = n + 1 := ⟨fuel - 1, by omega⟩
    have hnext : ¬ ((pageIndex page + 1) * P < data.length) := by
      rw [hk]; simpa using h1
    rw [collectPages_succ_ok fetch mk n w acc page w.server
      (f ((data.drop (pageIndex page * P)).take P))
      (if (pageIndex page + 1) * P < data.length then ((pageIndex page + 2 : Nat) : Int) else 0)
      (hfetch _ _)]
    simp only [if_neg hnext, if_true, List.range_zero, List.map_nil, List.map_cons]
    have htake : (data.drop (pageIndex page * P)).take P = data.drop (k * P) := by
      rw [hk]
      apply List.take_of_length_le
      rw [List.length_drop]
      have : (k + 0 + 1) * P = k * P + P := by ring
      omega
    rw [htake]
  | succ m ih =>
    intro k page fuel w acc hk hfuel h1 h2
    obtain ⟨n, rfl⟩ : ∃ n, fuel = n + 1 := ⟨fuel - 1, by omega⟩
    have hlt : (k + (m + 1)) * P < data.length := by
      rcases h2 with h | ⟨_, h⟩
      · exact h
      · omega
    have hle : (k + 1) * P ≤ (k + (m + 1)) * P := Nat.mul_le_mul_right P (by omega)
    have hnext : (pageIndex page + 1) * P < data.length := by
      rw [hk]; omega
    have hne : ((pageIndex page + 2 : Nat) : Int) ≠ 0 := by omega
    rw [collectPages_succ_ok fetch mk n w acc page w.server
      (f ((data.drop (pageIndex page * P)).take P))
      (if (pageIndex page + 1) * P < data.length then ((pageIndex page + 2 : Nat) : Int) else 0)
      (hfetch _ _)]
    simp only [if_pos hnext, if_neg hne]
    rw [ih (k + 1) _ n _ _ (by rw [hk]; exact pageIndex_cast k) (by omega)
      (by rw [show k + 1 + m + 1 = k + (m + 1) + 1 by omega]; exact h1)
      (Or.inl (by rw [show k + 1 + m = k + (m + 1) by omega]; exact hlt))]
    have hdata : f ((data.drop (k * P)).take P) ++ f (data.drop ((k + 1) * P)) =
        f (data.drop (k * P)) := by
      rw [← hf, show (k + 1) * P = k * P + P by ring, ← List.drop_drop,
        List.take_append_drop]
    have hrange : (List.range (m + 1)).map (fun i => ((k + i + 2 : Nat) : Int)) =
        ((k + 2 : Nat) : Int) :: (List.range m).map (fun i => ((k + 1 + i + 2 : Nat) : Int)) := by
      rw [List.range_succ_eq_map, List.map_cons, List.map_map]
      simp only [Nat.add_zero, List.cons.injEq, true_and]
      apply List.map_congr_left
      intro i _
      simp only [Function.comp]
      congr 1
      omega
    rw [hrange, hk, List.append_assoc acc, hdata]
    simp [List.append_assoc]

theorem ceilDiv_bounds (N P : Nat) (hP : 1 ≤ P) :
    N ≤ ceilDiv N P * P ∧ (N = 0 ∨ (ceilDiv N P - 1) * P < N) ∧ (N = 0 → ceilDiv N P = 0) ∧
      (1 ≤ N → 1 ≤ ceilDiv N P) := by
  unfold ceilDiv
  have h1 := Nat.div_add_mod (N + P - 1) P
  have h2 := Nat.mod_lt (N + P - 1) hP
  have h3 : (N + P - 1) / P * P = P * ((N + P - 1) / P) := Nat.mul_comm _ _
  have h4 : ((N + P - 1) / P - 1) * P = P * ((N + P - 1) / P) - P := by
    rw [Nat.sub_mul, Nat.one_mul, Nat.mul_comm]
  have h5 : N = 0 → (N + P - 1) / P = 0 := by
    intro h
    apply Nat.div_eq_of_lt
    omega
  have h6 : 1 ≤ N → 1 ≤ (N + P - 1) / P := by
    intro h
    apply (Nat.one_le_div_iff hP).2
    omega
  refine ⟨?_, ?_, h5, h6⟩
  · omega
  · rcases Nat.eq_zero_or_pos N with h | h
    · exact Or.inl h
    · have := h6 h
      right
      have h7 : P * ((N + P - 1) / P) ≥ P := Nat.le_mul_of_pos_right P this
      omega

/-- On a simulated paginated endpoint the loop, started on page 0 with
nothing accumulated, returns the whole dataset after one fetch per page,
and after one fetch when the dataset is empty. -/
theorem collectPages_paged_all {α β : Type} (f : List α → List β)
    (hf : ∀ a b, f (a ++ b) = f a ++ f b) (P : Nat) (hP : 1 ≤ P) (data : List α)
    (fetch : σ → Int → σ × Except GoError (List β × Response)) (mk : Int → Call)
    (hfetch : ∀ s p, fetch s p = (s, Except.ok (servePage f P data p)))
    (fuel : Nat) (hfuel : max 1 (ceilDiv data.length P) ≤ fuel) (w : World σ) :
    collectPages fetch mk fuel w [] 0 =
      some (⟨w.server, w.calls ++ (pageNumbers (max 1 (ceilDiv data.length P))).map mk,
          w.stdout⟩, f data, none) := by
  obtain ⟨h1, h2, h3, h4⟩ := ceilDiv_bounds data.length P hP
  have hn : 0 + (max 1 (ceilDiv data.length P) - 1) + 1 = max 1 (ceilDiv data.length P) := by
    omega
  have key := collectPages_paged f hf P data fetch mk hfetch
    (max 1 (ceilDiv data.length P) - 1) 0 0 fuel w [] pageIndex_zero (by omega)
    (by
      rw [hn]
      exact le_trans h1 (Nat.mul_le_mul_right P (le_max_right _ _)))
    (by
      rcases h2 with h | h
      · right
        have := h3 h
        omega
      · rcases Nat.eq_zero_or_pos data.length with h0 | h0
        · right
          have := h3 h0
          omega
        · left
          have := h4 h0
          rw [Nat.zero_add, max_eq_right this]
          exact h)
  rw [key]
  simp [pageNumbers]

theorem pageNumbers_length (n : Nat) (hn : 1 ≤ n) : (pageNumbers n).length = n := by
  simp [pageNumbers]
  omega

theorem listRepos_pagedClient (P : Nat) (hP : 1 ≤ P) (repos : List (Ptr Repository))
    (issues : List (Ptr Issue)) (fuel : Nat) (hfuel : max 1 (ceilDiv repos.length P) ≤ fuel)
    (w : World Unit) (org : String) :
    listRepos (pagedClient P repos issues) fuel w org =
      some (⟨w.server,
          w.calls ++ (pageNumbers (max 1 (ceilDiv repos.length P))).map (repoCall org),
          w.stdout⟩, repos, none) := by
  unfold listRepos
  rw [listRepos_loop_eq]
  exact collectPages_paged_all id (fun _ _ => rfl) P hP repos _ _ (fun _ _ => rfl) fuel hfuel w

theorem listIssues_pagedClient (P : Nat) (hP : 1 ≤ P) (repos : List (Ptr Repository))
    (issues : List (Ptr Issue)) (fuel : Nat) (hfuel : max 1 (ceilDiv issues.length P) ≤ fuel)
    (w : World Unit) (owner repo : String) (labels : List String) :
    listIssuesAndPullRequests (pagedClient P repos issues) fuel w owner repo labels =
      some (⟨w.server,
          w.calls ++ (pageNumbers (max 1 (ceilDiv issues.length P))).map
            (issueCall owner repo labels),
          w.stdout⟩, issues, none) := by
  unfold listIssuesAndPullRequests
  rw [listIssues_loop_eq]
  exact collectPages_paged_all id (fun _ _ => rfl) P hP issues _ _ (fun _ _ => rfl) fuel hfuel w

theorem listIssues_labelClient (issues : List Issue) (fuel : Nat) (w : World Unit)
    (owner repo : String) (labels : List String)
    (hfuel : max 1 (ceilDiv (issues.filter (Issue.hasLabels labels)).length 100) ≤ fuel) :
    listIssuesAndPullRequests (labelClient issues) fuel w owner repo labels =
      some (⟨w.server,
          w.calls ++ (pageNumbers
            (max 1 (ceilDiv (issues.filter (Issue.hasLabels labels)).length 100))).map
            (issueCall owner repo labels),
          w.stdout⟩, (issues.filter (Issue.hasLabels labels)).map some, none) := by
  unfold listIssuesAndPullRequests
  rw [listIssues_loop_eq]
  exact collectPages_paged_all (List.map some) (fun _ _ => List.map_append _ _ _) 100
    (by decide) (issues.filter (Issue.hasLabels labels)) _ _ (fun _ _ => rfl) fuel hfuel w

theorem listIssues_pageThenLabelClient (issues : List Issue) (fuel : Nat) (w : World Unit)
    (owner repo : String) (labels : List String)
    (hfuel : max 1 (ceilDiv issues.length 100) ≤ fuel) :
    listIssuesAndPullRequests (pageThenLabelClient issues) fuel w owner repo labels =
      some (⟨w.server,
          w.calls ++ (pageNumbers (max 1 (ceilDiv issues.length 100))).map
            (issueCall owner repo labels),
          w.stdout⟩, (issues.filter (Issue.hasLabels labels)).map some, none) := by
  unfold listIssuesAndPullRequests
  rw [listIssues_loop_eq]
  exact collectPages_paged_all (fun page => (page.filter (Issue.hasLabels labels)).map some)
    (fun _ _ => by simp [List.filter_append]) 100
    (by decide) issues _ _ (fun _ _ => rfl) fuel hfuel w

theorem sampleIssues_length : sampleIssues.length = 250 := by
  simp [sampleIssues]

theorem sampleIssues_labelled :
    (sampleIssues.filter (Issue.hasLabels ["sig/auth"])).length = 40 := by
  rfl

/-! ## Lemmas on the resolution scans -/

theorem getProjectID_scan_none (name : String) (w : World σ) (nodes : List ProjectNode) :
    getProjectID.scan name w nodes = none ↔ ∀ p ∈ nodes, p.Title ≠ name := by
  induction nodes with
  | nil => simp [getProjectID.scan]
  | cons project rest ih =>
    by_cases h : project.Title = name
    · simp [getProjectID.scan, h]
    · simp [getProjectID.scan, h, ih]

theorem getProjectID_scan_first (name : String) (w : World σ) (nodes : List ProjectNode)
    (h : ∃ p ∈ nodes, p.Title = name) :
    ∃ pre project post, nodes = pre ++ project :: post ∧ (∀ q ∈ pre, q.Title ≠ name) ∧
      project.Title = name ∧
      getProjectID.scan name w nodes =
        some (w.print (Out.printf "found project %q with ID %q\n"
          [Arg.str name, Arg.id project.ID]), project.ID) := by
  induction nodes with
  | nil => simp at h
  | cons project rest ih =>
    by_cases ht : project.Title = name
    · exact ⟨[], project, rest, rfl, by simp, ht, by simp [getProjectID.scan, ht]⟩
    · have hrest : ∃ p ∈ rest, p.Title = name := by
        obtain ⟨p, hp, hpt⟩ := h
        rcases List.mem_cons.1 hp with rfl | hp
        · exact absurd hpt ht
        · exact ⟨p, hp, hpt⟩
      obtain ⟨pre, q, post, hsplit, hpre, hq, hscan⟩ := ih hrest
      refine ⟨project :: pre, q, post, by rw [hsplit]; rfl, ?_, hq, ?_⟩
      · intro r hr
        rcases List.mem_cons.1 hr with rfl | hr
        · exact ht
        · exact hpre r hr
      · simp [getProjectID.scan, ht, hscan]

theorem getProjectID_ok (c : ghClient σ) (w : World σ) (org name : String) (s1 : σ)
    (nodes : List ProjectNode) (hq : c.QueryProjects w.server org = (s1, Except.ok nodes)) :
    getProjectID c w org name =
      match getProjectID.scan name ⟨s1, w.calls ++ [Call.queryProjects org], w.stdout⟩ nodes with
      | some (w2, id) => (w2, id, none)
      | none => (⟨s1, w.calls ++ [Call.queryProjects org], w.stdout⟩, ID.nil,
          some (GoError.errorf "project %q not found" [name])) := by
  simp only [getProjectID, World.QueryProjects, hq]

theorem scanOptions_eq_find (name : String) (options : List projectColumn) :
    getProjectColumnID.scanOptions name options =
      (options.find? (fun o => decide (o.Name = name))).map projectColumn.ID := by
  induction options with
  | nil => rfl
  | cons option rest ih =>
    by_cases h : option.Name = name
    · simp [getProjectColumnID.scanOptions, h]
    · simp [getProjectColumnID.scanOptions, h, ih]

theorem scan_eq_find (name : String) (nodes : List FieldNode) :
    getProjectColumnID.scan name nodes =
      ((((nodes.filter (fun n => decide (n.ProjectV2SingleSelectField.Name = "Status"))).map
        (fun n => n.ProjectV2SingleSelectField.Options)).flatten).find?
        (fun o => decide (o.Name = name))).map projectColumn.ID := by
  induction nodes with
  | nil => rfl
  | cons column rest ih =>
    by_cases h : column.ProjectV2SingleSelectField.Name = "Status"
    · simp only [getProjectColumnID.scan, h, ne_eq, not_true_eq_false, if_false,
        decide_True, List.filter_cons_of_pos, List.map_cons, List.flatten_cons,
        List.find?_append, scanOptions_eq_find, ih]
      cases List.find? (fun o => decide (o.Name = name))
        column.ProjectV2SingleSelectField.Options <;> simp
    · simp [getProjectColumnID.scan, h, ih]

theorem getProjectColumnID_ok (c : ghClient σ) (w : World σ) (projectID : ID) (name : String)
    (s1 : σ) (nodes : List FieldNode)
    (hq : c.QueryFields w.server projectID = (s1, Except.ok nodes)) :
    getProjectColumnID c w projectID name =
      match getProjectColumnID.scan name nodes with
      | some id => (⟨s1, w.calls ++ [Call.queryFields projectID], w.stdout⟩, id, none)
      | none => (⟨s1, w.calls ++ [Call.queryFields projectID], w.stdout⟩, ID.nil,
          some (GoError.errorf "column %q not found" [name])) := by
  simp only [getProjectColumnID, World.QueryFields, hq]

/-! ## Lemmas on the orchestration -/

theorem getProjectID_scan_calls (name : String) (w w2 : World σ) (id : ID) :
    ∀ nodes : List ProjectNode, getProjectID.scan name w nodes = some (w2, id) →
      w2.calls = w.calls ∧ w2.server = w.server := by
  intro nodes
  induction nodes with
  | nil => intro h; simp [getProjectID.scan] at h
  | cons project rest ih =>
    intro h
    by_cases ht : project.Title = name
    · simp only [getProjectID.scan, ht, if_true, Option.some.injEq, Prod.mk.injEq] at h
      rw [← h.1]
      exact ⟨rfl, rfl⟩
    · simp only [getProjectID.scan, ht, if_false] at h
      exact ih h

theorem getProjectID_calls (c : ghClient σ) (w : World σ) (org name : String) :
    (getProjectID c w org name).1.calls = w.calls ++ [Call.queryProjects org] := by
  unfold getProjectID World.QueryProjects
  cases (c.QueryProjects w.server org).2 with
  | error e => rfl
  | ok nodes =>
    simp only []
    cases hs : getProjectID.scan name
      ⟨(c.QueryProjects w.server org).1, w.calls ++ [Call.queryProjects org], w.stdout⟩ nodes with
    | none => rfl
    | some r =>
      obtain ⟨w2, id⟩ := r
      exact (getProjectID_scan_calls name _ w2 id nodes hs).1

theorem getProjectColumnID_calls (c : ghClient σ) (w : World σ) (projectID : ID)
    (name : String) :
    (getProjectColumnID c w projectID name).1.calls = w.calls ++ [Call.queryFields projectID] := by
  unfold getProjectColumnID World.QueryFields
  cases (c.QueryFields w.server projectID).2 with
  | error e => rfl
  | ok nodes =>
    simp only []
    cases getProjectColumnID.scan name nodes <;> rfl

/-- The page loop adds to the log only fetches of its own kind. -/
theorem collectPages_calls {α : Type}
    (fetch : σ → Int → σ × Except GoError (List α × Response)) (mk : Int → Call) :
    ∀ (fuel : Nat) (w : World σ) (acc : List α) (page : Int)
      (r : World σ × List α × Option GoError),
      collectPages fetch mk fuel w acc page = some r →
      ∃ ps : List Int, r.1.calls = w.calls ++ ps.map mk := by
  intro fuel
  induction fuel with
  | zero => intro w acc page r h; simp [collectPages] at h
  | succ n ih =>
    intro w acc page r h
    unfold collectPages at h
    cases hf : (fetch w.server page).2 with
    | error e =>
      rw [hf] at h
      simp only [Option.some.injEq] at h
      exact ⟨[page], by rw [← h]; rfl⟩
    | ok v =>
      obtain ⟨items, resp⟩ := v
      rw [hf] at h
      simp only [] at h
      split at h
      · simp only [Option.some.injEq] at h
        exact ⟨[page], by rw [← h]; rfl⟩
      · obtain ⟨ps, hps⟩ := ih _ _ _ r h
        exact ⟨page :: ps, by rw [hps]; simp⟩

theorem listRepos_calls (c : ghClient σ) (fuel : Nat) (w : World σ) (org : String)
    (r : World σ × List (Ptr Repository) × Option GoError)
    (h : listRepos c fuel w org = some r) :
    ∃ ps : List Int, r.1.calls = w.calls ++ ps.map (repoCall org) := by
  unfold listRepos at h
  rw [listRepos_loop_eq] at h
  exact collectPages_calls _ _ fuel w [] 0 r h

theorem rangeRepos_cons (c : ghClient σ) (fuel : Nat) (w : World σ) (repo : Ptr Repository)
    (rest : List (Ptr Repository)) :
    main.rangeRepos c fuel w (repo :: rest) =
      match repo.bind Repository.Name with
      | none => some (w, Outcome.panicked PanicValue.nilDereference)
      | some repoName =>
        match listIssuesAndPullRequests c fuel
            (w.print (Out.printf "Looking for issues and PRs in %s/%s\n"
              [Arg.str orgName, Arg.str repoName]))
            orgName repoName ["sig/auth"] with
        | none => none
        | some (w1, _, some err) => some (w1, Outcome.panicked (PanicValue.err err))
        | some (w1, items, none) =>
          main.rangeRepos c fuel
            (w1.print (Out.printf "found %d in repo\n" [Arg.int items.length])) rest := by
  rw [main.rangeRepos]

/-- The loop over a list of repositories runs the loop over a first part
and, when that part ends normally, the loop over the rest. -/
theorem rangeRepos_append (c : ghClient σ) (fuel : Nat) (pre rest : List (Ptr Repository)) :
    ∀ (w w1 : World σ), main.rangeRepos c fuel w pre = some (w1, Outcome.returned) →
      main.rangeRepos c fuel w (pre ++ rest) = main.rangeRepos c fuel w1 rest := by
  induction pre with
  | nil =>
    intro w w1 h
    simp only [main.rangeRepos, Option.some.injEq, Prod.mk.injEq, and_true] at h
    rw [List.nil_append, h]
  | cons repo pre ih =>
    intro w w1 h
    rw [List.cons_append, rangeRepos_cons]
    rw [rangeRepos_cons] at h
    cases hn : repo.bind Repository.Name with
    | none => rw [hn] at h; simp at h
    | some repoName =>
      rw [hn] at h
      simp only [] at h ⊢
      cases hl : listIssuesAndPullRequests c fuel
          (w.print (Out.printf "Looking for issues and PRs in %s/%s\n"
            [Arg.str orgName, Arg.str repoName])) orgName repoName ["sig/auth"] with
      | none => rw [hl] at h; simp at h
      | some r =>
        obtain ⟨w2, items, e⟩ := r
        rw [hl] at h
        cases e with
        | some err => simp at h
        | none =>
          simp only [] at h ⊢
          exact ih _ _ h

theorem rangeRepos_fails (c : ghClient σ) (fuel : Nat) (w w1 : World σ)
    (repo : Ptr Repository) (rest : List (Ptr Repository)) (repoName : String)
    (items : List (Ptr Issue)) (err : GoError)
    (hname : repo.bind Repository.Name = some repoName)
    (hscan : listIssuesAndPullRequests c fuel
      (w.print (Out.printf "Looking for issues and PRs in %s/%s\n"
        [Arg.str orgName, Arg.str repoName])) orgName repoName ["sig/auth"] =
      some (w1, items, some err)) :
    main.rangeRepos c fuel w (repo :: rest) =
      some (w1, Outcome.panicked (PanicValue.err err)) := by
  rw [rangeRepos_cons, hname]
  simp only []
  rw [hscan]

theorem listIssues_calls (c : ghClient σ) (fuel : Nat) (w : World σ) (owner repo : String)
    (labels : List String) (r : World σ × List (Ptr Issue) × Option GoError)
    (h : listIssuesAndPullRequests c fuel w owner repo labels = some r) :
    ∃ ps : List Int, r.1.calls = w.calls ++ ps.map (issueCall owner repo labels) := by
  unfold listIssuesAndPullRequests at h
  rw [listIssues_loop_eq] at h
  exact collectPages_calls _ _ fuel w [] 0 r h

/-! ## The paginated listings (C1, C2) -/

/-- C1: when the successive fetches succeed with the responses `pages`
(each with a nonzero `NextPage`) and then with a response whose `NextPage`
is 0, `listRepos`, and likewise `listIssuesAndPullRequests`, returns with
no error the items of those pages concatenated in fetch order; the fetches
it logs ask for page 0 first and then for the `NextPage` of each response in
turn, and the page whose `NextPage` is 0 is the last one fetched. -/
theorem listing_returns_concatenation (c : ghClient σ) :
    (∀ (org : String) (w : World σ) (pages : List (List (Ptr Repository) × Int))
        (s1 s2 : σ) (p1 : Int) (items : List (Ptr Repository)) (fuel : Nat),
        Serves (repoFetch c org) w.server 0 pages s1 p1 →
        repoFetch c org s1 p1 = (s2, Except.ok (items, ⟨0⟩)) →
        pages.length < fuel →
        listRepos c fuel w org =
          some (⟨s2, w.calls ++ (0 :: pages.map Prod.snd).map (repoCall org), w.stdout⟩,
            (pages.map Prod.fst).flatten ++ items, none)) ∧
    (∀ (owner repo : String) (labels : List String) (w : World σ)
        (pages : List (List (Ptr Issue) × Int))
        (s1 s2 : σ) (p1 : Int) (items : List (Ptr Issue)) (fuel : Nat),
        Serves (issueFetch c owner repo labels) w.server 0 pages s1 p1 →
        issueFetch c owner repo labels s1 p1 = (s2, Except.ok (items, ⟨0⟩)) →
        pages.length < fuel →
        listIssuesAndPullRequests c fuel w owner repo labels =
          some (⟨s2, w.calls ++ (0 :: pages.map Prod.snd).map (issueCall owner repo labels),
              w.stdout⟩,
            (pages.map Prod.fst).flatten ++ items, none)) := by
  constructor
  · intro org w pages s1 s2 p1 items fuel h hlast hfuel
    unfold listRepos
    rw [listRepos_loop_eq, collectPages_last _ _ h hlast fuel hfuel w rfl, List.nil_append]
  · intro owner repo labels w pages s1 s2 p1 items fuel h hlast hfuel
    unfold listIssuesAndPullRequests
    rw [listIssues_loop_eq, collectPages_last _ _ h hlast fuel hfuel w rfl, List.nil_append]

/-- C1 at a scripted server with three pages of repositories, whose
`NextPage` values are 7, 3 and 0, and two pages of issues. -/
theorem listing_returns_concatenation_witness :
    listRepos (scriptClient (Except.ok []) (Except.ok [])
        [Except.ok ([repoNamed "a", repoNamed "b"], ⟨7⟩), Except.ok ([], ⟨3⟩),
          Except.ok ([repoNamed "c"], ⟨0⟩), Except.ok ([repoNamed "d"], ⟨0⟩)] [])
        3 ⟨(0, 0), [], []⟩ "kubernetes" =
      some (⟨(3, 0), [repoCall "kubernetes" 0, repoCall "kubernetes" 7, repoCall "kubernetes" 3],
          []⟩,
        [repoNamed "a", repoNamed "b", repoNamed "c"], none) ∧
    listIssuesAndPullRequests (scriptClient (Except.ok []) (Except.ok []) []
        [Except.ok ([some (issueWith 1 ["sig/auth"] true)], ⟨2⟩),
          Except.ok ([some (issueWith 2 ["sig/auth"] false)], ⟨0⟩)])
        2 ⟨(0, 0), [], []⟩ "kubernetes" "kubernetes" ["sig/auth"] =
      some (⟨(0, 2), [issueCall "kubernetes" "kubernetes" ["sig/auth"] 0,
            issueCall "kubernetes" "kubernetes" ["sig/auth"] 2], []⟩,
        [some (issueWith 1 ["sig/auth"] true), some (issueWith 2 ["sig/auth"] false)], none) :=
  ⟨(listing_returns_concatenation _).1 "kubernetes" ⟨(0, 0), [], []⟩
      [([repoNamed "a", repoNamed "b"], 7), ([], 3)] (2, 0) (3, 0) 3 [repoNamed "c"] 3
      (Serves.more rfl (by decide) (Serves.more rfl (by decide) (Serves.done _ _))) rfl
      (by decide),
   (listing_returns_concatenation _).2 "kubernetes" "kubernetes" ["sig/auth"] ⟨(0, 0), [], []⟩
      [([some (issueWith 1 ["sig/auth"] true)], 2)] (0, 1) (0, 2) 2
      [some (issueWith 2 ["sig/auth"] false)] 2
      (Serves.more rfl (by decide) (Serves.done _ _)) rfl (by decide)⟩

/-- C2: when the successive fetches succeed with the responses `pages`
(none, one or several, each with a nonzero `NextPage`) and the next fetch
fails with `err`, `listRepos`, and likewise `listIssuesAndPullRequests`,
returns `err` with the nil list, not the items accumulated so far; the
failing fetch is the last call in the log and the server is left in the
state right after it. -/
theorem listing_fails_without_items (c : ghClient σ) :
    (∀ (org : String) (w : World σ) (pages : List (List (Ptr Repository) × Int))
        (s1 s2 : σ) (p1 : Int) (err : GoError) (fuel : Nat),
        Serves (repoFetch c org) w.server 0 pages s1 p1 →
        repoFetch c org s1 p1 = (s2, Except.error err) →
        pages.length < fuel →
        listRepos c fuel w org =
          some (⟨s2, w.calls ++ (0 :: pages.map Prod.snd).map (repoCall org), w.stdout⟩,
            [], some err)) ∧
    (∀ (owner repo : String) (labels : List String) (w : World σ)
        (pages : List (List (Ptr Issue) × Int))
        (s1 s2 : σ) (p1 : Int) (err : GoError) (fuel : Nat),
        Serves (issueFetch c owner repo labels) w.server 0 pages s1 p1 →
        issueFetch c owner repo labels s1 p1 = (s2, Except.error err) →
        pages.length < fuel →
        listIssuesAndPullRequests c fuel w owner repo labels =
          some (⟨s2, w.calls ++ (0 :: pages.map Prod.snd).map (issueCall owner repo labels),
              w.stdout⟩,
            [], some err)) := by
  constructor
  · intro org w pages s1 s2 p1 err fuel h hlast hfuel
    unfold listRepos
    rw [listRepos_loop_eq, collectPages_fails _ _ h hlast fuel hfuel w rfl]
  · intro owner repo labels w pages s1 s2 p1 err fuel h hlast hfuel
    unfold listIssuesAndPullRequests
    rw [listIssues_loop_eq, collectPages_fails _ _ h hlast fuel hfuel w rfl]

/-- C2 at a scripted server whose third repository fetch fails after two
pages with items, and whose first issue fetch fails; the script's later
entries are never asked for. -/
theorem listing_fails_without_items_witness :
    listRepos (scriptClient (Except.ok []) (Except.ok [])
        [Except.ok ([repoNamed "a", repoNamed "b"], ⟨2⟩), Except.ok ([repoNamed "c"], ⟨3⟩),
          Except.error (GoError.api "boom"), Except.ok ([repoNamed "d"], ⟨0⟩)] [])
        10 ⟨(0, 0), [], []⟩ "kubernetes" =
      some (⟨(3, 0), [repoCall "kubernetes" 0, repoCall "kubernetes" 2, repoCall "kubernetes" 3],
          []⟩,
        [], some (GoError.api "boom")) ∧
    listIssuesAndPullRequests (scriptClient (Except.ok []) (Except.ok []) []
        [Except.error (GoError.api "boom"),
          Except.ok ([some (issueWith 2 ["sig/auth"] false)], ⟨0⟩)])
        10 ⟨(0, 0), [], []⟩ "kubernetes" "kubernetes" ["sig/auth"] =
      some (⟨(0, 1), [issueCall "kubernetes" "kubernetes" ["sig/auth"] 0], []⟩,
        [], some (GoError.api "boom")) :=
  ⟨(listing_fails_without_items _).1 "kubernetes" ⟨(0, 0), [], []⟩
      [([repoNamed "a", repoNamed "b"], 2), ([repoNamed "c"], 3)] (2, 0) (3, 0) 3
      (GoError.api "boom") 10
      (Serves.more rfl (by decide) (Serves.more rfl (by decide) (Serves.done _ _))) rfl
      (by decide),
   (listing_fails_without_items _).2 "kubernetes" "kubernetes" ["sig/auth"] ⟨(0, 0), [], []⟩
      [] (0, 0) (0, 1) 0 (GoError.api "boom") 10 (Serves.done _ _) rfl (by decide)⟩

/-! ## Fetch counts on simulated servers (C3, C8) -/

/-- C3, as stated, fails on the empty dataset: with `N = 0` items and page
size `P = 1` the ceiling of `N / P` is 0, yet `listRepos` returns the empty
list after one fetch. -/
theorem paged_listing_empty_dataset_one_fetch :
    ∃ w1, listRepos (pagedClient 1 [] []) 1 ⟨(), [], []⟩ "kubernetes" = some (w1, [], none) ∧
      w1.calls.length = 1 ∧ ceilDiv ([] : List (Ptr Repository)).length 1 = 0 :=
  ⟨_, rfl, rfl, rfl⟩

/-- C3 (amended): for all page sizes `P ≥ 1` and every dataset of `N` items
that a simulated server serves as consecutive pages of `P` items with a
next-page indicator that is zero on the last page, `listRepos`, and likewise
`listIssuesAndPullRequests`, returns exactly the `N` items in server order
and makes exactly `max 1 ⌈N / P⌉` fetch calls: `⌈N / P⌉` when `N ≥ 1`, and
one fetch when the dataset is empty. -/
theorem paged_listing_fetch_count (P : Nat) (hP : 1 ≤ P) (repos : List (Ptr Repository))
    (issues : List (Ptr Issue)) (w : World Unit) (fuel : Nat) :
    (∀ org : String, max 1 (ceilDiv repos.length P) ≤ fuel →
      ∃ w1, listRepos (pagedClient P repos issues) fuel w org = some (w1, repos, none) ∧
        w1.calls = w.calls ++ (pageNumbers (max 1 (ceilDiv repos.length P))).map (repoCall org) ∧
        w1.calls.length = w.calls.length + max 1 (ceilDiv repos.length P)) ∧
    (∀ (owner repo : String) (labels : List String), max 1 (ceilDiv issues.length P) ≤ fuel →
      ∃ w1, listIssuesAndPullRequests (pagedClient P repos issues) fuel w owner repo labels =
          some (w1, issues, none) ∧
        w1.calls = w.calls ++ (pageNumbers (max 1 (ceilDiv issues.length P))).map
          (issueCall owner repo labels) ∧
        w1.calls.length = w.calls.length + max 1 (ceilDiv issues.length P)) := by
  constructor
  · intro org hfuel
    refine ⟨_, listRepos_pagedClient P hP repos issues fuel hfuel w org, rfl, ?_⟩
    simp only [List.length_append, List.length_map]
    rw [pageNumbers_length _ (le_max_left _ _)]
  · intro owner repo labels hfuel
    refine ⟨_, listIssues_pagedClient P hP repos issues fuel hfuel w owner repo labels, rfl, ?_⟩
    simp only [List.length_append, List.length_map]
    rw [pageNumbers_length _ (le_max_left _ _)]

/-- C3 (amended) at page size 2: five repositories take three fetches, for
pages 0, 2 and 3, and an empty issue list takes one. -/
theorem paged_listing_fetch_count_witness :
    (∃ w1, listRepos (pagedClient 2
          [repoNamed "a", repoNamed "b", repoNamed "c", repoNamed "d", repoNamed "e"] [])
          3 ⟨(), [], []⟩ "kubernetes" =
        some (w1, [repoNamed "a", repoNamed "b", repoNamed "c", repoNamed "d", repoNamed "e"],
          none) ∧
      w1.calls = [repoCall "kubernetes" 0, repoCall "kubernetes" 2, repoCall "kubernetes" 3] ∧
      w1.calls.length = 0 + 3) ∧
    (∃ w1, listIssuesAndPullRequests (pagedClient 2
          [repoNamed "a", repoNamed "b", repoNamed "c", repoNamed "d", repoNamed "e"] [])
          3 ⟨(), [], []⟩ "kubernetes" "a" ["sig/auth"] = some (w1, [], none) ∧
      w1.calls = [issueCall "kubernetes" "a" ["sig/auth"] 0] ∧
      w1.calls.length = 0 + 1) :=
  ⟨(paged_listing_fetch_count 2 (by decide)
      [repoNamed "a", repoNamed "b", repoNamed "c", repoNamed "d", repoNamed "e"] []
      ⟨(), [], []⟩ 3).1 "kubernetes" (by decide),
   (paged_listing_fetch_count 2 (by decide)
      [repoNamed "a", repoNamed "b", repoNamed "c", repoNamed "d", repoNamed "e"] []
      ⟨(), [], []⟩ 3).2 "kubernetes" "a" ["sig/auth"] (by decide)⟩

/-- C8, as stated, fails on a simulated repository whose server keeps the
labelled issues before it cuts pages: of the 250 issues of `sampleIssues`,
40 carry "sig/auth", and the scanner returns those 40 after one page fetch,
not three. -/
theorem label_scan_one_fetch :
    sampleIssues.length = 250 ∧
    (sampleIssues.filter (Issue.hasLabels ["sig/auth"])).length = 40 ∧
    ∃ w1, listIssuesAndPullRequests (labelClient sampleIssues) 3 ⟨(), [], []⟩
          "kubernetes" "kubernetes" ["sig/auth"] =
        some (w1, (sampleIssues.filter (Issue.hasLabels ["sig/auth"])).map some, none) ∧
      w1.calls.length = 1 ∧ w1.calls.length ≠ 3 := by
  refine ⟨sampleIssues_length, sampleIssues_labelled, _,
    listIssues_labelClient sampleIssues 3 ⟨(), [], []⟩ "kubernetes" "kubernetes" ["sig/auth"]
      ?_, ?_, ?_⟩
  · rw [sampleIssues_labelled]; decide
  · rw [sampleIssues_labelled]; rfl
  · rw [sampleIssues_labelled]; decide

/-- C8 (amended): on a simulated repository holding 250 issues of which 40
carry the label "sig/auth", with page size 100, `listIssuesAndPullRequests`
returns exactly those 40 items, in server order and each one as the server
holds it (its pull-request linkage included).  The number of page fetches
is the number of pages the server announces: one fetch, for page 0, when the
server keeps the labelled issues and then cuts pages (40 items fit one
page), and three fetches, for pages 0, 2 and 3, when the server cuts the 250
issues into pages and keeps the labelled issues within each page. -/
theorem label_scan_fetch_count (issues : List Issue) (h250 : issues.length = 250)
    (h40 : (issues.filter (Issue.hasLabels ["sig/auth"])).length = 40)
    (owner repo : String) (w : World Unit) (fuel : Nat) (hfuel : 3 ≤ fuel) :
    listIssuesAndPullRequests (labelClient issues) fuel w owner repo ["sig/auth"] =
      some (⟨(), w.calls ++ [issueCall owner repo ["sig/auth"] 0], w.stdout⟩,
        (issues.filter (Issue.hasLabels ["sig/auth"])).map some, none) ∧
    listIssuesAndPullRequests (pageThenLabelClient issues) fuel w owner repo ["sig/auth"] =
      some (⟨(), w.calls ++ [issueCall owner repo ["sig/auth"] 0,
            issueCall owner repo ["sig/auth"] 2, issueCall owner repo ["sig/auth"] 3], w.stdout⟩,
        (issues.filter (Issue.hasLabels ["sig/auth"])).map some, none) ∧
    ((issues.filter (Issue.hasLabels ["sig/auth"])).map some).length = 40 ∧
    ((issues.filter (Issue.hasLabels ["sig/auth"])).map some).map (Option.map Issue.IsPullRequest) =
      (issues.filter (Issue.hasLabels ["sig/auth"])).map (fun i => some i.IsPullRequest) := by
  have e1 : max 1 (ceilDiv 40 100) = 1 := by decide
  have e2 : max 1 (ceilDiv 250 100) = 3 := by decide
  refine ⟨?_, ?_, ?_, ?_⟩
  · rw [listIssues_labelClient issues fuel w owner repo ["sig/auth"] (by rw [h40, e1]; omega),
      h40, e1]
    rfl
  · rw [listIssues_pageThenLabelClient issues fuel w owner repo ["sig/auth"]
      (by rw [h250, e2]; exact hfuel), h250, e2]
    rfl
  · rw [List.length_map, h40]
  · simp [List.map_map, Function.comp]

/-- C8 (amended) at `sampleIssues`. -/
theorem label_scan_fetch_count_witness :
    listIssuesAndPullRequests (labelClient sampleIssues) 3 ⟨(), [], []⟩
        "kubernetes" "kubernetes" ["sig/auth"] =
      some (⟨(), [] ++ [issueCall "kubernetes" "kubernetes" ["sig/auth"] 0], []⟩,
        (sampleIssues.filter (Issue.hasLabels ["sig/auth"])).map some, none) ∧
    listIssuesAndPullRequests (pageThenLabelClient sampleIssues) 3 ⟨(), [], []⟩
        "kubernetes" "kubernetes" ["sig/auth"] =
      some (⟨(), [] ++ [issueCall "kubernetes" "kubernetes" ["sig/auth"] 0,
            issueCall "kubernetes" "kubernetes" ["sig/auth"] 2,
            issueCall "kubernetes" "kubernetes" ["sig/auth"] 3], []⟩,
        (sampleIssues.filter (Issue.hasLabels ["sig/auth"])).map some, none) ∧
    ((sampleIssues.filter (Issue.hasLabels ["sig/auth"])).map some).length = 40 ∧
    ((sampleIssues.filter (Issue.hasLabels ["sig/auth"])).map some).map
        (Option.map Issue.IsPullRequest) =
      (sampleIssues.filter (Issue.hasLabels ["sig/auth"])).map (fun i => some i.IsPullRequest) :=
  label_scan_fetch_count sampleIssues (by simp [sampleIssues]) (by rfl)
    "kubernetes" "kubernetes" ⟨(), [], []⟩ 3 (by decide)

/-! ## Project resolution (C4, C5) -/

/-- C4: when the project query succeeds and the requested title equals,
exactly and case-sensitively, the title of at least one returned project,
`getProjectID` returns with no error the ID of the first such project in
returned order: the returned list splits into projects with other titles,
that project, and the rest. -/
theorem getProjectID_returns_first_match (c : ghClient σ) (w : World σ) (org name : String)
    (s1 : σ) (nodes : List ProjectNode)
    (hq : c.QueryProjects w.server org = (s1, Except.ok nodes))
    (h : ∃ p ∈ nodes, p.Title = name) :
    ∃ pre project post, nodes = pre ++ project :: post ∧ (∀ q ∈ pre, q.Title ≠ name) ∧
      project.Title = name ∧
      getProjectID c w org name =
        (⟨s1, w.calls ++ [Call.queryProjects org],
          w.stdout ++ [Out.printf "found project %q with ID %q\n"
            [Arg.str name, Arg.id project.ID]]⟩, project.ID, none) := by
  obtain ⟨pre, project, post, hsplit, hpre, ht, hscan⟩ :=
    getProjectID_scan_first name ⟨s1, w.calls ++ [Call.queryProjects org], w.stdout⟩ nodes h
  refine ⟨pre, project, post, hsplit, hpre, ht, ?_⟩
  rw [getProjectID_ok c w org name s1 nodes hq, hscan]
  rfl

/-- C4 at the titles A, B, C, B: a request for "B" resolves to the ID of
the earlier project titled "B". -/
theorem getProjectID_returns_first_match_witness :
    (∃ pre project post,
      [(⟨ID.str "PVT_1", "A"⟩ : ProjectNode), ⟨ID.str "PVT_2", "B"⟩, ⟨ID.str "PVT_3", "C"⟩,
        ⟨ID.str "PVT_4", "B"⟩] = pre ++ project :: post ∧
      (∀ q ∈ pre, q.Title ≠ "B") ∧ project.Title = "B" ∧
      getProjectID (queryClient [⟨ID.str "PVT_1", "A"⟩, ⟨ID.str "PVT_2", "B"⟩,
          ⟨ID.str "PVT_3", "C"⟩, ⟨ID.str "PVT_4", "B"⟩] []) ⟨(0, 0), [], []⟩ "kubernetes" "B" =
        (⟨(0, 0), [] ++ [Call.queryProjects "kubernetes"],
          [] ++ [Out.printf "found project %q with ID %q\n" [Arg.str "B", Arg.id project.ID]]⟩,
          project.ID, none)) ∧
    (getProjectID (queryClient [⟨ID.str "PVT_1", "A"⟩, ⟨ID.str "PVT_2", "B"⟩,
        ⟨ID.str "PVT_3", "C"⟩, ⟨ID.str "PVT_4", "B"⟩] []) ⟨(0, 0), [], []⟩ "kubernetes" "B").2 =
      (ID.str "PVT_2", none) :=
  ⟨getProjectID_returns_first_match _ ⟨(0, 0), [], []⟩ "kubernetes" "B" (0, 0)
      [⟨ID.str "PVT_1", "A"⟩, ⟨ID.str "PVT_2", "B"⟩, ⟨ID.str "PVT_3", "C"⟩,
        ⟨ID.str "PVT_4", "B"⟩] rfl ⟨⟨ID.str "PVT_2", "B"⟩, by decide, rfl⟩,
   by decide⟩

/-- C5: when the project query succeeds, `getProjectID` returns an error if
and only if no returned project has a title exactly equal to the requested
one, and then it returns the nil ID and the error built from
"project %q not found" and the requested title. -/
theorem getProjectID_not_found_iff (c : ghClient σ) (w : World σ) (org name : String)
    (s1 : σ) (nodes : List ProjectNode)
    (hq : c.QueryProjects w.server org = (s1, Except.ok nodes)) :
    ((getProjectID c w org name).2.2 ≠ none ↔ ∀ p ∈ nodes, p.Title ≠ name) ∧
    ((∀ p ∈ nodes, p.Title ≠ name) →
      getProjectID c w org name =
        (⟨s1, w.calls ++ [Call.queryProjects org], w.stdout⟩, ID.nil,
          some (GoError.errorf "project %q not found" [name]))) := by
  have hnone := getProjectID_scan_none name
    ⟨s1, w.calls ++ [Call.queryProjects org], w.stdout⟩ nodes
  rw [getProjectID_ok c w org name s1 nodes hq]
  constructor
  · constructor
    · intro herr
      apply hnone.1
      cases hs : getProjectID.scan name ⟨s1, w.calls ++ [Call.queryProjects org], w.stdout⟩
        nodes with
      | none => rfl
      | some r => rw [hs] at herr; exact absurd rfl herr
    · intro hall
      rw [hnone.2 hall]
      simp
  · intro hall
    rw [hnone.2 hall]

/-- C5 at a project list whose only title differs from the request in
letter case, and at the empty project list. -/
theorem getProjectID_not_found_iff_witness :
    (((getProjectID (queryClient [⟨ID.str "PVT_1", "sig auth"⟩] [])
          ⟨(0, 0), [], []⟩ "kubernetes" "SIG Auth").2.2 ≠ none ↔
        ∀ p ∈ [(⟨ID.str "PVT_1", "sig auth"⟩ : ProjectNode)], p.Title ≠ "SIG Auth") ∧
      ((∀ p ∈ [(⟨ID.str "PVT_1", "sig auth"⟩ : ProjectNode)], p.Title ≠ "SIG Auth") →
        getProjectID (queryClient [⟨ID.str "PVT_1", "sig auth"⟩] [])
            ⟨(0, 0), [], []⟩ "kubernetes" "SIG Auth" =
          (⟨(0, 0), [] ++ [Call.queryProjects "kubernetes"], []⟩, ID.nil,
            some (GoError.errorf "project %q not found" ["SIG Auth"])))) ∧
    getProjectID (queryClient [⟨ID.str "PVT_1", "sig auth"⟩] [])
        ⟨(0, 0), [], []⟩ "kubernetes" "SIG Auth" =
      (⟨(0, 0), [] ++ [Call.queryProjects "kubernetes"], []⟩, ID.nil,
        some (GoError.errorf "project %q not found" ["SIG Auth"])) ∧
    getProjectID (queryClient [] []) ⟨(0, 0), [], []⟩ "kubernetes" "SIG Auth" =
      (⟨(0, 0), [] ++ [Call.queryProjects "kubernetes"], []⟩, ID.nil,
        some (GoError.errorf "project %q not found" ["SIG Auth"])) :=
  ⟨getProjectID_not_found_iff _ ⟨(0, 0), [], []⟩ "kubernetes" "SIG Auth" (0, 0)
      [⟨ID.str "PVT_1", "sig auth"⟩] rfl,
   (getProjectID_not_found_iff _ ⟨(0, 0), [], []⟩ "kubernetes" "SIG Auth" (0, 0)
      [⟨ID.str "PVT_1", "sig auth"⟩] rfl).2 (by decide),
   (getProjectID_not_found_iff _ ⟨(0, 0), [], []⟩ "kubernetes" "SIG Auth" (0, 0)
      [] rfl).2 (by decide)⟩

/-! ## Column resolution (C6, C7, C10) -/

/-- C6: when the field query succeeds and exactly one returned field is
named "Status", `getProjectColumnID` returns the ID of the first option of
that field whose name equals the requested name, and when that field has no
such option it returns the nil ID and the error built from
"column %q not found" and the requested name. -/
theorem getProjectColumnID_single_status (c : ghClient σ) (w : World σ) (projectID : ID)
    (name : String) (s1 : σ) (nodes : List FieldNode) (field : FieldNode)
    (hq : c.QueryFields w.server projectID = (s1, Except.ok nodes))
    (hone : nodes.filter (fun n => decide (n.ProjectV2SingleSelectField.Name = "Status")) =
      [field]) :
    getProjectColumnID c w projectID name =
      (⟨s1, w.calls ++ [Call.queryFields projectID], w.stdout⟩,
        match field.ProjectV2SingleSelectField.Options.find?
            (fun o => decide (o.Name = name)) with
        | some o => (o.ID, none)
        | none => (ID.nil, some (GoError.errorf "column %q not found" [name]))) := by
  rw [getProjectColumnID_ok c w projectID name s1 nodes hq, scan_eq_find, hone]
  simp only [List.map_cons, List.map_nil, List.flatten_cons, List.flatten_nil, List.append_nil]
  cases List.find? (fun o => decide (o.Name = name))
    field.ProjectV2SingleSelectField.Options <;> rfl

/-- C6 at a field list whose one "Status" field has the options
("id1", "Needs Triage") and ("id2", "Done"): "Needs Triage" resolves to
"id1" and "Missing" fails. -/
theorem getProjectColumnID_single_status_witness :
    getProjectColumnID (queryClient []
        [fieldNamed "Priority" [("p1", "Needs Triage")],
          fieldNamed "Status" [("id1", "Needs Triage"), ("id2", "Done")]])
        ⟨(0, 0), [], []⟩ (ID.str "PVT_1") "Needs Triage" =
      (⟨(0, 0), [] ++ [Call.queryFields (ID.str "PVT_1")], []⟩, ID.str "id1", none) ∧
    getProjectColumnID (queryClient []
        [fieldNamed "Priority" [("p1", "Needs Triage")],
          fieldNamed "Status" [("id1", "Needs Triage"), ("id2", "Done")]])
        ⟨(0, 0), [], []⟩ (ID.str "PVT_1") "Missing" =
      (⟨(0, 0), [] ++ [Call.queryFields (ID.str "PVT_1")], []⟩, ID.nil,
        some (GoError.errorf "column %q not found" ["Missing"])) :=
  ⟨getProjectColumnID_single_status _ ⟨(0, 0), [], []⟩ (ID.str "PVT_1") "Needs Triage" (0, 0)
      [fieldNamed "Priority" [("p1", "Needs Triage")],
        fieldNamed "Status" [("id1", "Needs Triage"), ("id2", "Done")]]
      (fieldNamed "Status" [("id1", "Needs Triage"), ("id2", "Done")]) rfl (by decide),
   getProjectColumnID_single_status _ ⟨(0, 0), [], []⟩ (ID.str "PVT_1") "Missing" (0, 0)
      [fieldNamed "Priority" [("p1", "Needs Triage")],
        fieldNamed "Status" [("id1", "Needs Triage"), ("id2", "Done")]]
      (fieldNamed "Status" [("id1", "Needs Triage"), ("id2", "Done")]) rfl (by decide)⟩

/-- C7: when the field query succeeds and no returned field is named exactly
"Status", `getProjectColumnID` returns, for every requested name, the nil ID
and the error built from "column %q not found" and the requested name, also
when another field has an option with the requested name. -/
theorem getProjectColumnID_no_status (c : ghClient σ) (w : World σ) (projectID : ID)
    (name : String) (s1 : σ) (nodes : List FieldNode)
    (hq : c.QueryFields w.server projectID = (s1, Except.ok nodes))
    (hno : ∀ n ∈ nodes, n.ProjectV2SingleSelectField.Name ≠ "Status") :
    getProjectColumnID c w projectID name =
      (⟨s1, w.calls ++ [Call.queryFields projectID], w.stdout⟩, ID.nil,
        some (GoError.errorf "column %q not found" [name])) := by
  have hfilter : nodes.filter (fun n => decide (n.ProjectV2SingleSelectField.Name = "Status")) =
      [] := by
    rw [List.filter_eq_nil_iff]
    intro n hn
    simpa using hno n hn
  rw [getProjectColumnID_ok c w projectID name s1 nodes hq, scan_eq_find, hfilter]
  rfl

/-- C7 at the empty field list, at fields named "Priority" and "status"
that both have an option with the requested name. -/
theorem getProjectColumnID_no_status_witness :
    getProjectColumnID (queryClient [] []) ⟨(0, 0), [], []⟩ (ID.str "PVT_1") "Needs Triage" =
      (⟨(0, 0), [] ++ [Call.queryFields (ID.str "PVT_1")], []⟩, ID.nil,
        some (GoError.errorf "column %q not found" ["Needs Triage"])) ∧
    getProjectColumnID (queryClient []
        [fieldNamed "Priority" [("p1", "Needs Triage")],
          fieldNamed "status" [("id1", "Needs Triage")]])
        ⟨(0, 0), [], []⟩ (ID.str "PVT_1") "Needs Triage" =
      (⟨(0, 0), [] ++ [Call.queryFields (ID.str "PVT_1")], []⟩, ID.nil,
        some (GoError.errorf "column %q not found" ["Needs Triage"])) :=
  ⟨getProjectColumnID_no_status _ ⟨(0, 0), [], []⟩ (ID.str "PVT_1") "Needs Triage" (0, 0)
      [] rfl (by decide),
   getProjectColumnID_no_status _ ⟨(0, 0), [], []⟩ (ID.str "PVT_1") "Needs Triage" (0, 0)
      [fieldNamed "Priority" [("p1", "Needs Triage")],
        fieldNamed "status" [("id1", "Needs Triage")]] rfl (by decide)⟩

/-- C10: when the field query succeeds, whatever the number of returned
fields named "Status", `getProjectColumnID` returns what the reference
definition `getProjectColumnID_spec` gives: the ID of the first option with
the requested name among the options of the "Status" fields taken in
returned order, or else the "column not found" error. -/
theorem getProjectColumnID_refines_spec (c : ghClient σ) (w : World σ) (projectID : ID)
    (name : String) (s1 : σ) (nodes : List FieldNode)
    (hq : c.QueryFields w.server projectID = (s1, Except.ok nodes)) :
    (getProjectColumnID c w projectID name).2 = getProjectColumnID_spec nodes name := by
  rw [getProjectColumnID_ok c w projectID name s1 nodes hq, scan_eq_find]
  unfold getProjectColumnID_spec
  cases List.find? (fun o => decide (o.Name = name))
    ((nodes.filter (fun n => decide (n.ProjectV2SingleSelectField.Name = "Status"))).map
      (fun n => n.ProjectV2SingleSelectField.Options)).flatten <;> rfl

/-- C10 at two fields named "Status": the first lacks the option "Done",
the second has it, and the second field's option ID is returned. -/
theorem getProjectColumnID_refines_spec_witness :
    ((getProjectColumnID (queryClient []
        [fieldNamed "Status" [("id1", "Needs Triage")],
          fieldNamed "Status" [("id2", "Needs Triage"), ("id3", "Done")]])
        ⟨(0, 0), [], []⟩ (ID.str "PVT_1") "Done").2 =
      getProjectColumnID_spec
        [fieldNamed "Status" [("id1", "Needs Triage")],
          fieldNamed "Status" [("id2", "Needs Triage"), ("id3", "Done")]] "Done") ∧
    getProjectColumnID_spec
        [fieldNamed "Status" [("id1", "Needs Triage")],
          fieldNamed "Status" [("id2", "Needs Triage"), ("id3", "Done")]] "Done" =
      (ID.str "id3", none) :=
  ⟨getProjectColumnID_refines_spec _ ⟨(0, 0), [], []⟩ (ID.str "PVT_1") "Done" (0, 0)
      [fieldNamed "Status" [("id1", "Needs Triage")],
        fieldNamed "Status" [("id2", "Needs Triage"), ("id3", "Done")]] rfl,
   by decide⟩

/-! ## Orchestration (C9) -/

/-- C9: `main` stops at the first error.  If `getProjectID` fails, or
`getProjectColumnID` fails, or `listRepos` fails, `main` panics with that
error in the world that step left: the log holds the queries and
repository-listing fetches made so far and no issue fetch.  If the loop
over the repositories before position `k` ends normally and
`listIssuesAndPullRequests` fails on the `k`-th repository, `main` panics
with that error in the world the failing scan left, whatever repositories
follow: the last calls in the log are the fetches for the `k`-th repository,
so no later repository is scanned and the failing one is not skipped. -/
theorem main_stops_at_first_error (c : ghClient σ) (fuel : Nat) (w : World σ) :
    (∀ (w1 : World σ) (id : ID) (err : GoError),
      getProjectID c w orgName projectName = (w1, id, some err) →
      main c fuel w = some (w1, Outcome.panicked (PanicValue.err err)) ∧
        w1.calls = w.calls ++ [Call.queryProjects orgName]) ∧
    (∀ (w1 w2 : World σ) (projectID id : ID) (err : GoError),
      getProjectID c w orgName projectName = (w1, projectID, none) →
      getProjectColumnID c w1 projectID columnName = (w2, id, some err) →
      main c fuel w = some (w2, Outcome.panicked (PanicValue.err err)) ∧
        w2.calls = w.calls ++ [Call.queryProjects orgName, Call.queryFields projectID]) ∧
    (∀ (w1 w2 w3 : World σ) (projectID columnID : ID) (repos : List (Ptr Repository))
        (err : GoError),
      getProjectID c w orgName projectName = (w1, projectID, none) →
      getProjectColumnID c w1 projectID columnName = (w2, columnID, none) →
      listRepos c fuel (w2.print (Out.println [Arg.str "columnID: ", Arg.id columnID]))
        orgName = some (w3, repos, some err) →
      main c fuel w = some (w3, Outcome.panicked (PanicValue.err err)) ∧
        ∃ ps : List Int, w3.calls =
          w.calls ++ [Call.queryProjects orgName, Call.queryFields projectID] ++
            ps.map (repoCall orgName)) ∧
    (∀ (w1 w2 w3 w4 w5 : World σ) (projectID columnID : ID)
        (pre post : List (Ptr Repository)) (repo : Ptr Repository) (repoName : String)
        (items : List (Ptr Issue)) (err : GoError),
      getProjectID c w orgName projectName = (w1, projectID, none) →
      getProjectColumnID c w1 projectID columnName = (w2, columnID, none) →
      listRepos c fuel (w2.print (Out.println [Arg.str "columnID: ", Arg.id columnID]))
        orgName = some (w3, pre ++ repo :: post, none) →
      main.rangeRepos c fuel w3 pre = some (w4, Outcome.returned) →
      repo.bind Repository.Name = some repoName →
      listIssuesAndPullRequests c fuel
        (w4.print (Out.printf "Looking for issues and PRs in %s/%s\n"
          [Arg.str orgName, Arg.str repoName])) orgName repoName ["sig/auth"] =
        some (w5, items, some err) →
      main c fuel w = some (w5, Outcome.panicked (PanicValue.err err)) ∧
        ∃ ps : List Int, w5.calls =
          w4.calls ++ ps.map (issueCall orgName repoName ["sig/auth"])) := by
  refine ⟨?_, ?_, ?_, ?_⟩
  · intro w1 id err h1
    refine ⟨by simp only [main, h1], ?_⟩
    have := getProjectID_calls c w orgName projectName
    rw [h1] at this
    exact this
  · intro w1 w2 projectID id err h1 h2
    refine ⟨by simp only [main, h1, h2], ?_⟩
    have e1 := getProjectID_calls c w orgName projectName
    have e2 := getProjectColumnID_calls c w1 projectID columnName
    rw [h1] at e1
    rw [h2] at e2
    simp only [] at e1 e2
    rw [e2, e1, List.append_assoc]
    rfl
  · intro w1 w2 w3 projectID columnID repos err h1 h2 h3
    refine ⟨by simp only [main, h1, h2, h3], ?_⟩
    have e1 := getProjectID_calls c w orgName projectName
    have e2 := getProjectColumnID_calls c w1 projectID columnName
    obtain ⟨ps, e3⟩ := listRepos_calls c fuel _ orgName _ h3
    rw [h1] at e1
    rw [h2] at e2
    simp only [World.print] at e1 e2 e3
    refine ⟨ps, ?_⟩
    rw [e3, e2, e1, List.append_assoc w.calls]
    rfl
  · intro w1 w2 w3 w4 w5 projectID columnID pre post repo repoName items err h1 h2 h3 h4 h5 h6
    refine ⟨?_, ?_⟩
    · simp only [main, h1, h2, h3]
      rw [rangeRepos_append c fuel pre (repo :: post) w3 w4 h4]
      exact rangeRepos_fails c fuel w4 w5 repo post repoName items err h5 h6
    · obtain ⟨ps, e⟩ := listIssues_calls c fuel _ orgName repoName ["sig/auth"] _ h6
      exact ⟨ps, e⟩

/-- C9 at four scripted servers: the project query fails; the project has
no "Status" field; the second repository-listing fetch fails; and, of three
repositories, the scan of the second fails, after which the third is never
scanned (the server has answered two issue fetches only). -/
theorem main_stops_at_first_error_witness :
    main (scriptClient (Except.error (GoError.api "boom")) (Except.ok sampleFields) [] [])
        5 ⟨(0, 0), [], []⟩ =
      some (⟨(0, 0), [Call.queryProjects orgName], []⟩,
        Outcome.panicked (PanicValue.err (GoError.api "boom"))) ∧
    main (scriptClient (Except.ok sampleProjects) (Except.ok [fieldNamed "Priority" []]) [] [])
        5 ⟨(0, 0), [], []⟩ =
      some (⟨(0, 0), [Call.queryProjects orgName, Call.queryFields (ID.str "PVT_1")],
          [Out.printf "found project %q with ID %q\n"
            [Arg.str projectName, Arg.id (ID.str "PVT_1")]]⟩,
        Outcome.panicked (PanicValue.err
          (GoError.errorf "column %q not found" [columnName]))) ∧
    main (scriptClient (Except.ok sampleProjects) (Except.ok sampleFields)
          [Except.ok ([repoNamed "a"], ⟨2⟩), Except.error (GoError.api "boom")] [])
        5 ⟨(0, 0), [], []⟩ =
      some (⟨(2, 0), [Call.queryProjects orgName, Call.queryFields (ID.str "PVT_1"),
            repoCall orgName 0, repoCall orgName 2],
          [Out.printf "found project %q with ID %q\n"
            [Arg.str projectName, Arg.id (ID.str "PVT_1")],
           Out.println [Arg.str "columnID: ", Arg.id (ID.str "OPT_7")]]⟩,
        Outcome.panicked (PanicValue.err (GoError.api "boom"))) ∧
    main (scriptClient (Except.ok sampleProjects) (Except.ok sampleFields)
          [Except.ok ([repoNamed "a", repoNamed "b", repoNamed "c"], ⟨0⟩)]
          [Except.ok ([some (issueWith 1 ["sig/auth"] true)], ⟨0⟩),
            Except.error (GoError.api "boom"), Except.ok ([], ⟨0⟩)])
        5 ⟨(0, 0), [], []⟩ =
      some (⟨(1, 2), [Call.queryProjects orgName, Call.queryFields (ID.str "PVT_1"),
            repoCall orgName 0, issueCall orgName "a" ["sig/auth"] 0,
            issueCall orgName "b" ["sig/auth"] 0],
          [Out.printf "found project %q with ID %q\n"
            [Arg.str projectName, Arg.id (ID.str "PVT_1")],
           Out.println [Arg.str "columnID: ", Arg.id (ID.str "OPT_7")],
           Out.printf "Looking for issues and PRs in %s/%s\n" [Arg.str orgName, Arg.str "a"],
           Out.printf "found %d in repo\n" [Arg.int 1],
           Out.printf "Looking for issues and PRs in %s/%s\n" [Arg.str orgName, Arg.str "b"]]⟩,
        Outcome.panicked (PanicValue.err (GoError.api "boom"))) :=
  ⟨((main_stops_at_first_error
      (scriptClient (Except.error (GoError.api "boom")) (Except.ok sampleFields) [] [])
      5 ⟨(0, 0), [], []⟩).1 _ _ _ rfl).1,
   ((main_stops_at_first_error
      (scriptClient (Except.ok sampleProjects) (Except.ok [fieldNamed "Priority" []]) [] [])
      5 ⟨(0, 0), [], []⟩).2.1 _ _ _ _ _ rfl rfl).1,
   ((main_stops_at_first_error
      (scriptClient (Except.ok sampleProjects) (Except.ok sampleFields)
        [Except.ok ([repoNamed "a"], ⟨2⟩), Except.error (GoError.api "boom")] [])
      5 ⟨(0, 0), [], []⟩).2.2.1 _ _ _ _ _ _ _ rfl rfl rfl).1,
   ((main_stops_at_first_error
      (scriptClient (Except.ok sampleProjects) (Except.ok sampleFields)
        [Except.ok ([repoNamed "a", repoNamed "b", repoNamed "c"], ⟨0⟩)]
        [Except.ok ([some (issueWith 1 ["sig/auth"] true)], ⟨0⟩),
          Except.error (GoError.api "boom"), Except.ok ([], ⟨0⟩)])
      5 ⟨(0, 0), [], []⟩).2.2.2 _ _ _ _ _ _ _
      [repoNamed "a"] [repoNamed "c"] (repoNamed "b") "b" _ _ rfl rfl rfl rfl rfl rfl).1⟩

end SigAuth
